import Mathlib

/-!
Verification development for the auria-plugin crate (src/src/lib.rs): an in-process
plugin registry and lifecycle manager.  The Rust code is shallowly embedded:

* the `HashMap<String, PluginEntry>` store becomes an association list with unique
  keys (the only reachable states), with `containsKey` / `storeGet` / `storeInsert` /
  `storeRemove` / `storeReplaceFirst` mirroring `contains_key` / `get` / `insert` /
  `remove` / `get_mut`-then-mutate;
* a plugin trait object becomes a record of its observable behaviour: the three
  accessor results plus the outcome each lifecycle hook would report;
* the wall clock read in `PluginMetadata::new` becomes an explicit `now` argument;
* `AuriaResult<T>` becomes `Except AuriaError T`;
* the filesystem consulted by `load_plugins_from_dir` becomes an explicit
  `DirListing` argument (missing / unreadable / a list of entry file names);
* the two lock acquisitions inside `register` (the duplicate check under a shared
  read lock, the insert under a separate exclusive write lock) are additionally
  modelled as separate atomic actions of a two-task interleaving semantics, to
  settle the atomicity question.
-/

set_option maxRecDepth 4096

namespace AuriaPlugin

/-- The category tag of a plugin, from the source enum `PluginType`; the open
`Custom` variant carries a free-text label. -/
inductive PluginType where
  | Backend
  | Router
  | Middleware
  | Storage
  | Security
  | Monitoring
  | Custom (label : String)
  deriving DecidableEq, Repr

/-- The error type of the external `auria_core` crate; the plugin code only ever
constructs the `ExecutionError` variant, carrying a message string. -/
inductive AuriaError where
  | ExecutionError (msg : String)
  deriving DecidableEq, Repr

/-- The record of lifecycle/request extension points a plugin participates in,
from the source struct `PluginHooks` (seven boolean flags). -/
structure PluginHooks where
  pre_execution : Bool
  post_execution : Bool
  pre_routing : Bool
  post_routing : Bool
  on_error : Bool
  on_request : Bool
  on_response : Bool
  deriving DecidableEq, Repr

/-- `PluginHooks::all()`: every flag set. -/
def PluginHooks.all : PluginHooks :=
  ⟨true, true, true, true, true, true, true⟩

/-- `PluginHooks::none()`, which is `PluginHooks::default()`: every flag clear. -/
def PluginHooks.none : PluginHooks :=
  ⟨false, false, false, false, false, false, false⟩

/-- The descriptive record kept per registered plugin, from the source struct
`PluginMetadata`. -/
structure PluginMetadata where
  name : String
  version : String
  plugin_type : PluginType
  description : String
  author : String
  dependencies : List String
  hooks : PluginHooks
  enabled : Bool
  loaded_at : Nat
  deriving DecidableEq, Repr

/-- `PluginMetadata::new`: empty description/author/dependencies, hooks all clear,
enabled true, `loaded_at` read from the wall clock (here the explicit `now`). -/
def PluginMetadata.new (name version : String) (plugin_type : PluginType)
    (now : Nat) : PluginMetadata :=
  { name := name
    version := version
    plugin_type := plugin_type
    description := ""
    author := ""
    dependencies := []
    hooks := PluginHooks.none
    enabled := true
    loaded_at := now }

instance {ε α : Type} [DecidableEq ε] [DecidableEq α] : DecidableEq (Except ε α) :=
  fun a b =>
  match a, b with
  | Except.ok x, Except.ok y =>
    if h : x = y then Decidable.isTrue (by rw [h])
    else Decidable.isFalse (by intro hh; cases hh; exact h rfl)
  | Except.error x, Except.error y =>
    if h : x = y then Decidable.isTrue (by rw [h])
    else Decidable.isFalse (by intro hh; cases hh; exact h rfl)
  | Except.ok _, Except.error _ => Decidable.isFalse (by intro hh; cases hh)
  | Except.error _, Except.ok _ => Decidable.isFalse (by intro hh; cases hh)

/-- A plugin trait object, embedded as the record of everything the registry and
manager can observe of it through the capability contract: the three accessors
and the result each lifecycle hook reports when invoked. -/
structure Plugin where
  name : String
  version : String
  plugin_type : PluginType
  initResult : Except AuriaError Unit
  shutdownResult : Except AuriaError Unit
  deriving DecidableEq, Repr

/-- The store's value type, from the source struct `PluginEntry`. -/
structure PluginEntry where
  metadata : PluginMetadata
  deriving DecidableEq, Repr

/-- The registry's `HashMap<String, PluginEntry>`, modelled as an association
list; every state the Rust code can reach has pairwise distinct keys. -/
abbrev Store := List (String × PluginEntry)

/-- `HashMap::contains_key`. -/
def containsKey (s : Store) (n : String) : Bool :=
  s.any (fun kv => kv.1 == n)

/-- `HashMap::get`: the binding of the key, if any (the first match; keys of a
reachable store are unique). -/
def storeGet (s : Store) (n : String) : Option PluginEntry :=
  (s.find? (fun kv => kv.1 == n)).map (fun kv => kv.2)

/-- `HashMap::get_mut` followed by a mutation: rewrite the binding of the key in
place, leaving every other binding untouched. -/
def storeReplaceFirst (s : Store) (n : String) (f : PluginEntry → PluginEntry) :
    Store :=
  match s with
  | [] => []
  | kv :: t => if kv.1 == n then (kv.1, f kv.2) :: t else kv :: storeReplaceFirst t n f

/-- `HashMap::insert`: overwrite the existing binding of the key, or add a new
binding. -/
def storeInsert (s : Store) (n : String) (e : PluginEntry) : Store :=
  if containsKey s n then storeReplaceFirst s n (fun _ => e) else s ++ [(n, e)]

/-- `HashMap::remove`: the removed binding (if any) together with the store
stripped of every binding of the key (a reachable store has at most one). -/
def storeRemove (s : Store) (n : String) : Option PluginEntry × Store :=
  (storeGet s n, s.filter (fun kv => kv.1 != n))

/-- The registry, from the source struct `PluginRegistry`; the lock around the
store is invisible to the sequential semantics (each operation is one critical
section), except in `register`, whose two separate acquisitions are modelled
again below as `registerStep`. -/
structure PluginRegistry where
  plugins : Store
  deriving DecidableEq, Repr

/-- `PluginRegistry::new`. -/
def PluginRegistry.new : PluginRegistry := ⟨[]⟩

/-- The error value built by `register` on a duplicate name. -/
def duplicateErr (name : String) : AuriaError :=
  AuriaError.ExecutionError ("Plugin " ++ name ++ " already registered")

/-- The error value built by `enable`/`disable` on an absent name. -/
def notFoundErr (name : String) : AuriaError :=
  AuriaError.ExecutionError ("Plugin " ++ name ++ " not found")

/-- `PluginRegistry::register`: reject a duplicate name, otherwise build fresh
metadata from the plugin's accessors and insert it.  Neither lifecycle hook of
the plugin is consulted.  Returns the result together with the updated registry. -/
def PluginRegistry.register (r : PluginRegistry) (p : Plugin) (now : Nat) :
    Except AuriaError Unit × PluginRegistry :=
  let name := p.name
  if containsKey r.plugins name then
    (Except.error (duplicateErr name), r)
  else
    let metadata := PluginMetadata.new name p.version p.plugin_type now
    (Except.ok (), ⟨storeInsert r.plugins name ⟨metadata⟩⟩)

/-- `PluginRegistry::unregister`: remove the binding and hand back its metadata;
an absent name yields `none`, not an error. -/
def PluginRegistry.unregister (r : PluginRegistry) (n : String) :
    Option PluginMetadata × PluginRegistry :=
  let (removed, s) := storeRemove r.plugins n
  (removed.map (fun e => e.metadata), ⟨s⟩)

/-- `PluginRegistry::get_metadata`: a copy of the metadata, if present. -/
def PluginRegistry.get_metadata (r : PluginRegistry) (n : String) :
    Option PluginMetadata :=
  (storeGet r.plugins n).map (fun e => e.metadata)

/-- The read-only projection of one entry, from the source struct `PluginInfo`
(built inline by both listing functions). -/
structure PluginInfo where
  name : String
  version : String
  plugin_type : PluginType
  enabled : Bool
  deriving DecidableEq, Repr

/-- The projection `PluginEntry` → `PluginInfo` performed by `list_plugins` and
`list_by_type`. -/
def entryInfo (e : PluginEntry) : PluginInfo :=
  ⟨e.metadata.name, e.metadata.version, e.metadata.plugin_type, e.metadata.enabled⟩

/-- `PluginRegistry::list_plugins`: the projection of every entry. -/
def PluginRegistry.list_plugins (r : PluginRegistry) : List PluginInfo :=
  r.plugins.map (fun kv => entryInfo kv.2)

/-- `PluginRegistry::list_by_type`: the projection of every entry whose category
equals the argument (derived structural equality, so `Custom` labels compare). -/
def PluginRegistry.list_by_type (r : PluginRegistry) (t : PluginType) :
    List PluginInfo :=
  (r.plugins.filter (fun kv => kv.2.metadata.plugin_type == t)).map
    (fun kv => entryInfo kv.2)

/-- `PluginRegistry::enable`: set the entry's flag to true, or fail with the
not-found error when the name is absent. -/
def PluginRegistry.enable (r : PluginRegistry) (n : String) :
    Except AuriaError Unit × PluginRegistry :=
  if containsKey r.plugins n then
    (Except.ok (), ⟨storeReplaceFirst r.plugins n
      (fun e => { e with metadata := { e.metadata with enabled := true } })⟩)
  else
    (Except.error (notFoundErr n), r)

/-- `PluginRegistry::disable`: set the entry's flag to false, or fail with the
not-found error when the name is absent. -/
def PluginRegistry.disable (r : PluginRegistry) (n : String) :
    Except AuriaError Unit × PluginRegistry :=
  if containsKey r.plugins n then
    (Except.ok (), ⟨storeReplaceFirst r.plugins n
      (fun e => { e with metadata := { e.metadata with enabled := false } })⟩)
  else
    (Except.error (notFoundErr n), r)

/-- `PluginRegistry::is_enabled`: the stored flag, or false when the name is
absent (`unwrap_or(false)`), never an error. -/
def PluginRegistry.is_enabled (r : PluginRegistry) (n : String) : Bool :=
  ((storeGet r.plugins n).map (fun e => e.metadata.enabled)).getD false

/-- The manager's configuration block, from the source struct `PluginConfig`
(paths modelled as their strings). -/
structure PluginConfig where
  plugin_dirs : List String
  auto_enable : Bool
  enable_hot_reload : Bool
  deriving DecidableEq, Repr

/-- `PluginConfig::default()`. -/
def PluginConfig.default : PluginConfig :=
  ⟨[], true, false⟩

/-- The orchestration layer, from the source struct `PluginManager`. -/
structure PluginManager where
  registry : PluginRegistry
  config : PluginConfig
  deriving DecidableEq, Repr

/-- `PluginManager::new`. -/
def PluginManager.new : PluginManager :=
  ⟨PluginRegistry.new, PluginConfig.default⟩

/-- `PluginManager::register_plugin`: pass-through to the registry. -/
def PluginManager.register_plugin (m : PluginManager) (p : Plugin) (now : Nat) :
    Except AuriaError Unit × PluginManager :=
  let (res, r) := m.registry.register p now
  (res, { m with registry := r })

/-- `PluginManager::unregister_plugin`: pass-through to the registry. -/
def PluginManager.unregister_plugin (m : PluginManager) (n : String) :
    Option PluginMetadata × PluginManager :=
  let (res, r) := m.registry.unregister n
  (res, { m with registry := r })

/-- `PluginManager::list_plugins`: pass-through to the registry. -/
def PluginManager.list_plugins (m : PluginManager) : List PluginInfo :=
  m.registry.list_plugins

/-- `PluginManager::get_plugin_info`: `get_metadata` projected to `PluginInfo`. -/
def PluginManager.get_plugin_info (m : PluginManager) (n : String) :
    Option PluginInfo :=
  (m.registry.get_metadata n).map
    (fun md => ⟨md.name, md.version, md.plugin_type, md.enabled⟩)

/-- `PluginManager::enable_plugin`: pass-through to the registry. -/
def PluginManager.enable_plugin (m : PluginManager) (n : String) :
    Except AuriaError Unit × PluginManager :=
  let (res, r) := m.registry.enable n
  (res, { m with registry := r })

/-- `PluginManager::disable_plugin`: pass-through to the registry. -/
def PluginManager.disable_plugin (m : PluginManager) (n : String) :
    Except AuriaError Unit × PluginManager :=
  let (res, r) := m.registry.disable n
  (res, { m with registry := r })

/-- The filesystem state `load_plugins_from_dir` observes for its directory
argument: the path does not exist, `read_dir` fails, or the directory holds
entries with the given file names. -/
inductive DirListing where
  | missing
  | unreadable
  | entries (files : List String)
  deriving DecidableEq, Repr

/-- The list of characters strictly after the last dot. -/
def afterLastDot (cs : List Char) : List Char :=
  match cs with
  | [] => []
  | c :: t => if t.contains '.' ∨ c = '.' then afterLastDot t else c :: t

/-- `Path::extension()` applied to a directory entry's file name: `none` when
the name (beyond a leading dot, which only marks a hidden file) has no dot,
otherwise the portion after the final dot. -/
def rustExtension (fileName : String) : Option String :=
  match fileName.toList with
  | [] => Option.none
  | _ :: body =>
    if body.contains '.' then Option.some (String.mk (afterLastDot body))
    else Option.none

/-- The extension test of `load_plugins_from_dir`:
`e == "so" || e == "dll" || e == "dylib"`, false when there is no extension
(`map_or(false, ..)`). -/
def isNativeLib (fileName : String) : Bool :=
  match rustExtension fileName with
  | Option.some e => e == "so" || e == "dll" || e == "dylib"
  | Option.none => false

/-- `PluginManager::load_plugins_from_dir`: zero (as a success) when the
directory is missing or unreadable, otherwise the count of entries whose
extension is a native-library suffix.  Nothing is instantiated or registered:
the manager comes back untouched. -/
def PluginManager.load_plugins_from_dir (m : PluginManager) (d : DirListing) :
    Except AuriaError Nat × PluginManager :=
  match d with
  | DirListing.missing => (Except.ok 0, m)
  | DirListing.unreadable => (Except.ok 0, m)
  | DirListing.entries files => (Except.ok (files.countP isNativeLib), m)

/-- Modelled from the spec: `initialize_all` — the source's `PluginManager`
(src/src/lib.rs lines 241-311) declares no such method and `PluginEntry` holds
no live plugin object, so the batch operation described in spec §4.3 is missing
from src.  Per the spec it iterates the held plugin contract objects in
registration order, invokes each one's initialize hook, propagates the first
failure verbatim and aborts the remaining sequence.  Returns the batch result
together with the names of the plugins whose hook was invoked, in order. -/
def init_all (plugins : List Plugin) : Except AuriaError Unit × List String :=
  match plugins with
  | [] => (Except.ok (), [])
  | p :: rest =>
    match p.initResult with
    | Except.ok _ =>
      let (res, called) := init_all rest
      (res, p.name :: called)
    | Except.error e => (Except.error e, [p.name])

/-- Modelled from the spec: `shutdown_all` — missing from src for the same
reason as `init_all`; per spec §4.3 it is the symmetric batch over the shutdown
hooks, fail-fast in the same way. -/
def shutdown_all (plugins : List Plugin) : Except AuriaError Unit × List String :=
  match plugins with
  | [] => (Except.ok (), [])
  | p :: rest =>
    match p.shutdownResult with
    | Except.ok _ =>
      let (res, called) := shutdown_all rest
      (res, p.name :: called)
    | Except.error e => (Except.error e, [p.name])

/-- The control point one task inside `register` has reached.  The source takes
two separate lock acquisitions: the duplicate check runs under a shared read
lock (line 115), and only afterwards is the exclusive write lock taken for the
insert (line 127); between the two the task holds no lock at all. -/
inductive RegisterPhase where
  | checking
  | inserting (metadata : PluginMetadata)
  | finished (res : Except AuriaError Unit)
  deriving DecidableEq, Repr

/-- One atomic action of a task executing the source's `register` body: from
`checking`, the read-locked `contains_key` either finishes the call with the
duplicate error or computes the metadata to insert; from `inserting`, the
write-locked `insert` stores it and the call finishes with `Ok(())`. -/
def registerStep (p : Plugin) (now : Nat) :
    RegisterPhase × Store → RegisterPhase × Store
  | (RegisterPhase.checking, s) =>
    if containsKey s p.name then
      (RegisterPhase.finished (Except.error (duplicateErr p.name)), s)
    else
      (RegisterPhase.inserting (PluginMetadata.new p.name p.version p.plugin_type now), s)
  | (RegisterPhase.inserting md, s) =>
    (RegisterPhase.finished (Except.ok ()), storeInsert s p.name ⟨md⟩)
  | (RegisterPhase.finished res, s) => (RegisterPhase.finished res, s)

/-- Two tasks concurrently inside `register`, plus the shared store. -/
structure RaceState where
  store : Store
  task1 : RegisterPhase
  task2 : RegisterPhase
  deriving DecidableEq, Repr

/-- Which of the two tasks the scheduler runs next. -/
inductive TaskId where
  | one
  | two
  deriving DecidableEq, Repr

/-- Run one atomic action of the chosen task. -/
def raceStep (p1 p2 : Plugin) (now1 now2 : Nat) (st : RaceState) :
    TaskId → RaceState
  | TaskId.one =>
    let (ph, s) := registerStep p1 now1 (st.task1, st.store)
    { st with task1 := ph, store := s }
  | TaskId.two =>
    let (ph, s) := registerStep p2 now2 (st.task2, st.store)
    { st with task2 := ph, store := s }

/-- Run a whole schedule, leftmost action first. -/
def raceRun (p1 p2 : Plugin) (now1 now2 : Nat) (st : RaceState)
    (sched : List TaskId) : RaceState :=
  sched.foldl (raceStep p1 p2 now1 now2) st

/-- Every binding's metadata carries the binding's own key as its name; this
holds in every store the Rust code can reach, because `register` inserts under
`plugin.name()` the metadata built from that very name. -/
def keyedByName (s : Store) : Bool :=
  s.all (fun kv => kv.2.metadata.name == kv.1)

/-- A concrete well-behaved plugin, for witnesses. -/
def samplePlugin (n v : String) (t : PluginType) : Plugin :=
  ⟨n, v, t, Except.ok (), Except.ok ()⟩

/-- A concrete plugin whose lifecycle hooks fail, for witnesses. -/
def sampleFailing (n : String) (e : AuriaError) : Plugin :=
  ⟨n, "1.0.0", PluginType.Backend, Except.error e, Except.error e⟩

section StoreLemmas

/-- The key-membership test agrees with the lookup. -/
theorem containsKey_eq_isSome (s : Store) (n : String) :
    containsKey s n = (storeGet s n).isSome := by
  induction s with
  | nil => rfl
  | cons kv t ih =>
    by_cases hk : (kv.1 == n) = true
    · simp [containsKey, storeGet, List.find?_cons, hk]
    · simp only [Bool.not_eq_true] at hk
      simp only [containsKey, storeGet, List.find?_cons, hk, List.any_cons,
        Bool.false_or] at ih ⊢
      exact ih

/-- An absent key looks up to nothing. -/
theorem storeGet_eq_none (s : Store) (n : String)
    (h : containsKey s n = false) : storeGet s n = Option.none := by
  rw [containsKey_eq_isSome] at h
  exact Option.not_isSome_iff_eq_none.mp (by simp [h])

/-- A present key looks up to some entry. -/
theorem storeGet_of_containsKey (s : Store) (n : String)
    (h : containsKey s n = true) : ∃ e, storeGet s n = some e := by
  rw [containsKey_eq_isSome] at h
  exact Option.isSome_iff_exists.mp h

/-- Rewriting a present binding makes the lookup return the rewritten entry. -/
theorem storeGet_replaceConst (s : Store) (n : String) (e : PluginEntry)
    (h : containsKey s n = true) :
    storeGet (storeReplaceFirst s n (fun _ => e)) n = some e := by
  induction s with
  | nil => simp [containsKey] at h
  | cons kv t ih =>
    by_cases hk : (kv.1 == n) = true
    · simp [storeReplaceFirst, storeGet, List.find?_cons, hk]
    · simp only [Bool.not_eq_true] at hk
      have h' : containsKey t n = true := by
        simpa [containsKey, hk] using h
      simp only [storeReplaceFirst, hk, Bool.false_eq_true, if_false,
        storeGet, List.find?_cons]
      simpa [storeGet] using ih h'

/-- Appending a binding for an absent key makes the lookup return it. -/
theorem storeGet_append_self (s : Store) (n : String) (e : PluginEntry)
    (h : containsKey s n = false) :
    storeGet (s ++ [(n, e)]) n = some e := by
  induction s with
  | nil => simp [storeGet, List.find?_cons]
  | cons kv t ih =>
    simp only [containsKey, List.any_cons, Bool.or_eq_false_iff] at h
    simp only [List.cons_append, storeGet, List.find?_cons, h.1, Bool.false_eq_true,
      if_false] at ih ⊢
    exact ih (by simpa [containsKey] using h.2)

/-- After an insert, the inserted key looks up to the inserted entry. -/
theorem storeGet_storeInsert_self (s : Store) (n : String) (e : PluginEntry) :
    storeGet (storeInsert s n e) n = some e := by
  unfold storeInsert
  by_cases h : containsKey s n = true
  · rw [if_pos h]; exact storeGet_replaceConst s n e h
  · simp only [Bool.not_eq_true] at h
    rw [if_neg (by simp [h])]
    exact storeGet_append_self s n e h

/-- After an insert, the inserted key is present. -/
theorem containsKey_storeInsert_self (s : Store) (n : String) (e : PluginEntry) :
    containsKey (storeInsert s n e) n = true := by
  rw [containsKey_eq_isSome, storeGet_storeInsert_self]; rfl

/-- Filtering out a key removes every binding of it. -/
theorem storeGet_filter_ne (s : Store) (n : String) :
    storeGet (s.filter (fun kv => kv.1 != n)) n = Option.none := by
  have hfind : List.find? (fun kv => kv.1 == n) (s.filter (fun kv => kv.1 != n)) =
      Option.none := by
    rw [List.find?_eq_none]
    intro kv hkv
    have h2 := (List.mem_filter.mp hkv).2
    simpa using h2
  simp [storeGet, hfind]

/-- Filtering out a key leaves it absent. -/
theorem containsKey_filter_ne (s : Store) (n : String) :
    containsKey (s.filter (fun kv => kv.1 != n)) n = false := by
  rw [containsKey_eq_isSome, storeGet_filter_ne]; rfl

/-- Rewriting the binding of a key with a function that fixes the bound entry
changes nothing. -/
theorem storeReplaceFirst_eq_self (s : Store) (n : String)
    (f : PluginEntry → PluginEntry) (e : PluginEntry)
    (hget : storeGet s n = some e) (hf : f e = e) :
    storeReplaceFirst s n f = s := by
  induction s with
  | nil => rfl
  | cons kv t ih =>
    by_cases hk : (kv.1 == n) = true
    · have hkv : kv.2 = e := by
        simpa [storeGet, List.find?_cons, hk] using hget
      simp [storeReplaceFirst, hk, hkv ▸ hf]
    · simp only [Bool.not_eq_true] at hk
      simp only [storeGet, List.find?_cons, hk, Bool.false_eq_true, if_false] at hget
      simp only [storeReplaceFirst, hk, Bool.false_eq_true, if_false, List.cons.injEq,
        true_and]
      exact ih (by simpa [storeGet] using hget)

/-- Setting the enabled flag of an already-enabled entry to true fixes it. -/
theorem setEnabled_true_id (e : PluginEntry) (h : e.metadata.enabled = true) :
    ({ e with metadata := { e.metadata with enabled := true } } : PluginEntry) = e := by
  obtain ⟨⟨n, v, t, d, a, dep, hk, en, l⟩⟩ := e
  subst h
  rfl

/-- Setting the enabled flag of an already-disabled entry to false fixes it. -/
theorem setEnabled_false_id (e : PluginEntry) (h : e.metadata.enabled = false) :
    ({ e with metadata := { e.metadata with enabled := false } } : PluginEntry) = e := by
  obtain ⟨⟨n, v, t, d, a, dep, hk, en, l⟩⟩ := e
  subst h
  rfl

/-- Successful registration appends the freshly built entry. -/
theorem register_success (r : PluginRegistry) (p : Plugin) (now : Nat)
    (h : containsKey r.plugins p.name = false) :
    r.register p now =
      (Except.ok (),
        ⟨r.plugins ++
          [(p.name, ⟨PluginMetadata.new p.name p.version p.plugin_type now⟩)]⟩) := by
  simp [PluginRegistry.register, storeInsert, h]

end StoreLemmas

/-- Claim C1: for every registry state and every plugin whose name already has
an entry in the store, register fails with the duplicate-registration error and
the store is unchanged; registering the same name twice leaves exactly the
first entry's metadata in the store. -/
theorem C1_duplicate_registration_rejected :
    (∀ (r : PluginRegistry) (p : Plugin) (now : Nat),
        containsKey r.plugins p.name = true →
        r.register p now = (Except.error (duplicateErr p.name), r)) ∧
    (∀ (r : PluginRegistry) (p1 p2 : Plugin) (n1 n2 : Nat),
        containsKey r.plugins p1.name = false → p2.name = p1.name →
        ((r.register p1 n1).2.register p2 n2).1 =
          Except.error (duplicateErr p2.name) ∧
        ((r.register p1 n1).2.register p2 n2).2 = (r.register p1 n1).2 ∧
        (r.register p1 n1).2.get_metadata p1.name =
          some (PluginMetadata.new p1.name p1.version p1.plugin_type n1)) := by
  constructor
  · intro r p now h
    simp [PluginRegistry.register, h]
  · intro r p1 p2 n1 n2 h1 h2
    rw [register_success r p1 n1 h1]
    have hck : containsKey
        (r.plugins ++
          [(p1.name, ⟨PluginMetadata.new p1.name p1.version p1.plugin_type n1⟩)])
        p2.name = true := by
      simp [containsKey, List.any_append, h2]
    refine ⟨?_, ?_, ?_⟩
    · simp [PluginRegistry.register, hck]
    · simp [PluginRegistry.register, hck]
    · simp [PluginRegistry.get_metadata,
        storeGet_append_self r.plugins p1.name _ h1]

/-- Concrete run of C1: a second registration of the name already stored (and
of a name registered just before) is rejected with the duplicate error. -/
theorem C1_duplicate_registration_rejected_witness :
    ((⟨[("a", ⟨PluginMetadata.new "a" "0.1" PluginType.Backend 1⟩)]⟩ :
        PluginRegistry).register (samplePlugin "a" "2.0" PluginType.Router) 5 =
      (Except.error (duplicateErr "a"),
        ⟨[("a", ⟨PluginMetadata.new "a" "0.1" PluginType.Backend 1⟩)]⟩)) ∧
    ((PluginRegistry.new.register (samplePlugin "b" "1.0" PluginType.Backend)
        3).2.register (samplePlugin "b" "9.9" PluginType.Storage) 7).1 =
      Except.error (duplicateErr "b") :=
  ⟨C1_duplicate_registration_rejected.1 _ _ 5 (by decide),
   (C1_duplicate_registration_rejected.2 PluginRegistry.new _ _ 3 7 (by decide)
      (by decide)).1⟩

/-- Claim C4: for every name absent from the store, is_enabled returns false
without an error while enable and disable fail with the not-found error; for a
present name, is_enabled returns the stored flag. -/
theorem C4_is_enabled_leniency :
    (∀ (r : PluginRegistry) (n : String),
        containsKey r.plugins n = false →
        r.is_enabled n = false ∧
        r.enable n = (Except.error (notFoundErr n), r) ∧
        r.disable n = (Except.error (notFoundErr n), r)) ∧
    (∀ (r : PluginRegistry) (n : String) (e : PluginEntry),
        storeGet r.plugins n = some e →
        r.is_enabled n = e.metadata.enabled) := by
  constructor
  · intro r n h
    refine ⟨?_, ?_, ?_⟩
    · simp [PluginRegistry.is_enabled, storeGet_eq_none r.plugins n h]
    · simp [PluginRegistry.enable, h]
    · simp [PluginRegistry.disable, h]
  · intro r n e h
    simp [PluginRegistry.is_enabled, h]

/-- Concrete run of C4: an unknown name is reported not enabled without error,
while enable and disable on it fail; a present name reports its stored flag. -/
theorem C4_is_enabled_leniency_witness :
    (PluginRegistry.new.is_enabled "ghost" = false ∧
      PluginRegistry.new.enable "ghost" =
        (Except.error (notFoundErr "ghost"), PluginRegistry.new) ∧
      PluginRegistry.new.disable "ghost" =
        (Except.error (notFoundErr "ghost"), PluginRegistry.new)) ∧
    (⟨[("a", ⟨PluginMetadata.new "a" "1" PluginType.Backend 0⟩)]⟩ :
        PluginRegistry).is_enabled "a" = true :=
  ⟨C4_is_enabled_leniency.1 PluginRegistry.new "ghost" (by decide),
   C4_is_enabled_leniency.2 _ "a"
     ⟨PluginMetadata.new "a" "1" PluginType.Backend 0⟩ (by decide)⟩

/-- Claim C5: registering a not-yet-registered name succeeds and stores
metadata with name, version and category from the plugin's contract, enabled
true, hooks all clear, empty description, author and dependencies, and the
current wall-clock timestamp; and registration observes only the three
accessors of the plugin, so its outcome is independent of the plugin's
lifecycle hooks (initialization is a separate caller-driven step and is never
invoked). -/
theorem C5_register_fresh_metadata :
    (∀ (r : PluginRegistry) (p : Plugin) (now : Nat),
        containsKey r.plugins p.name = false →
        (r.register p now).1 = Except.ok () ∧
        (r.register p now).2.get_metadata p.name =
          some { name := p.name, version := p.version,
                 plugin_type := p.plugin_type, description := "", author := "",
                 dependencies := [], hooks := PluginHooks.none, enabled := true,
                 loaded_at := now }) ∧
    (∀ (r : PluginRegistry) (p q : Plugin) (now : Nat),
        p.name = q.name → p.version = q.version → p.plugin_type = q.plugin_type →
        r.register p now = r.register q now) := by
  constructor
  · intro r p now h
    rw [register_success r p now h]
    refine ⟨rfl, ?_⟩
    simp [PluginRegistry.get_metadata, storeGet_append_self r.plugins p.name _ h,
      PluginMetadata.new]
  · intro r p q now h1 h2 h3
    simp [PluginRegistry.register, h1, h2, h3]

/-- Concrete run of C5: a fresh registration succeeds with default metadata,
and a plugin differing only in its hook results registers identically. -/
theorem C5_register_fresh_metadata_witness :
    ((PluginRegistry.new.register (samplePlugin "a" "1.2" PluginType.Storage)
        42).1 = Except.ok () ∧
      (PluginRegistry.new.register (samplePlugin "a" "1.2" PluginType.Storage)
          42).2.get_metadata "a" =
        some { name := "a", version := "1.2", plugin_type := PluginType.Storage,
               description := "", author := "", dependencies := [],
               hooks := PluginHooks.none, enabled := true, loaded_at := 42 }) ∧
    PluginRegistry.new.register (samplePlugin "a" "1.2" PluginType.Storage) 42 =
      PluginRegistry.new.register
        ⟨"a", "1.2", PluginType.Storage,
          Except.error (AuriaError.ExecutionError "boom"),
          Except.error (AuriaError.ExecutionError "boom")⟩ 42 :=
  ⟨C5_register_fresh_metadata.1 PluginRegistry.new _ 42 (by decide),
   C5_register_fresh_metadata.2 PluginRegistry.new _ _ 42 rfl rfl rfl⟩

/-- Claim C7: enable on an already-enabled registered name succeeds and leaves
the whole registry state unchanged, and likewise disable on an
already-disabled one. -/
theorem C7_enable_disable_idempotent :
    ∀ (r : PluginRegistry) (n : String) (e : PluginEntry),
      storeGet r.plugins n = some e →
      (e.metadata.enabled = true → r.enable n = (Except.ok (), r)) ∧
      (e.metadata.enabled = false → r.disable n = (Except.ok (), r)) := by
  intro r n e hget
  have hck : containsKey r.plugins n = true := by
    rw [containsKey_eq_isSome, hget]; rfl
  constructor
  · intro hen
    have hr := storeReplaceFirst_eq_self r.plugins n
      (fun a => { a with metadata := { a.metadata with enabled := true } }) e hget
      (setEnabled_true_id e hen)
    simp [PluginRegistry.enable, hck, hr]
  · intro hen
    have hr := storeReplaceFirst_eq_self r.plugins n
      (fun a => { a with metadata := { a.metadata with enabled := false } }) e hget
      (setEnabled_false_id e hen)
    simp [PluginRegistry.disable, hck, hr]

/-- Concrete run of C7: enable on an enabled entry and disable on a disabled
entry both succeed and change nothing. -/
theorem C7_enable_disable_idempotent_witness :
    (⟨[("a", ⟨PluginMetadata.new "a" "1" PluginType.Backend 0⟩)]⟩ :
        PluginRegistry).enable "a" =
      (Except.ok (),
        ⟨[("a", ⟨PluginMetadata.new "a" "1" PluginType.Backend 0⟩)]⟩) ∧
    (⟨[("b", ⟨{ PluginMetadata.new "b" "1" PluginType.Router 0 with
          enabled := false }⟩)]⟩ : PluginRegistry).disable "b" =
      (Except.ok (),
        ⟨[("b", ⟨{ PluginMetadata.new "b" "1" PluginType.Router 0 with
            enabled := false }⟩)]⟩) :=
  ⟨(C7_enable_disable_idempotent _ "a"
      ⟨PluginMetadata.new "a" "1" PluginType.Backend 0⟩ (by decide)).1 (by decide),
   (C7_enable_disable_idempotent _ "b"
      ⟨{ PluginMetadata.new "b" "1" PluginType.Router 0 with enabled := false }⟩
      (by decide)).2 (by decide)⟩

/-- Claim C10: register validates nothing about the self-reported name beyond
the duplicate check; a plugin whose name is the empty string is accepted and
stored under the empty-string key whenever that key is absent. -/
theorem C10_empty_name_accepted :
    ∀ (r : PluginRegistry) (p : Plugin) (now : Nat),
      p.name = "" → containsKey r.plugins "" = false →
      (r.register p now).1 = Except.ok () ∧
      (r.register p now).2.get_metadata "" =
        some (PluginMetadata.new "" p.version p.plugin_type now) := by
  intro r p now hname h
  have h' : containsKey r.plugins p.name = false := by rw [hname]; exact h
  rw [register_success r p now h']
  rw [hname]
  exact ⟨rfl, by
    simp [PluginRegistry.get_metadata, storeGet_append_self r.plugins "" _ h]⟩

/-- Claim C6: unregister removes and returns the entry's metadata when present
and returns an absent result (not an error) when not; afterwards get_metadata
is absent and list_plugins no longer includes that name, and a fresh register
with the same name succeeds with default metadata and no memory of prior
state. -/
theorem C6_unregister_semantics :
    (∀ (r : PluginRegistry) (n : String) (e : PluginEntry),
        storeGet r.plugins n = some e →
        (r.unregister n).1 = some e.metadata) ∧
    (∀ (r : PluginRegistry) (n : String),
        containsKey r.plugins n = false →
        (r.unregister n).1 = Option.none) ∧
    (∀ (r : PluginRegistry) (n : String),
        (r.unregister n).2.get_metadata n = Option.none) ∧
    (∀ (r : PluginRegistry) (n : String),
        keyedByName r.plugins = true →
        ∀ i ∈ (r.unregister n).2.list_plugins, i.name ≠ n) ∧
    (∀ (r : PluginRegistry) (n : String) (p : Plugin) (now : Nat),
        p.name = n →
        ((r.unregister n).2.register p now).1 = Except.ok () ∧
        ((r.unregister n).2.register p now).2.get_metadata n =
          some (PluginMetadata.new n p.version p.plugin_type now)) := by
  refine ⟨?_, ?_, ?_, ?_, ?_⟩
  · intro r n e hget
    simp [PluginRegistry.unregister, storeRemove, hget]
  · intro r n h
    simp [PluginRegistry.unregister, storeRemove, storeGet_eq_none r.plugins n h]
  · intro r n
    simp [PluginRegistry.unregister, storeRemove, PluginRegistry.get_metadata,
      storeGet_filter_ne]
  · intro r n hk i hi
    simp only [PluginRegistry.unregister, storeRemove, PluginRegistry.list_plugins,
      List.mem_map] at hi
    obtain ⟨kv, hkv, hproj⟩ := hi
    have hmem := List.mem_filter.mp hkv
    have hne : kv.1 ≠ n := by simpa using hmem.2
    simp only [keyedByName, List.all_eq_true] at hk
    have hname : kv.2.metadata.name = kv.1 := by
      have := hk kv hmem.1
      simpa using this
    rw [← hproj]
    simpa [entryInfo, hname] using hne
  · intro r n p now hname
    have hck : containsKey ((r.unregister n).2).plugins p.name = false := by
      simpa [PluginRegistry.unregister, storeRemove, hname] using
        containsKey_filter_ne r.plugins n
    rw [register_success _ p now hck]
    refine ⟨rfl, ?_⟩
    have habs : containsKey ((r.unregister n).2).plugins n = false := by
      simpa [PluginRegistry.unregister, storeRemove] using
        containsKey_filter_ne r.plugins n
    subst hname
    simp [PluginRegistry.get_metadata,
      storeGet_append_self _ p.name _ habs]

/-- Concrete run of C6: unregistering a present name hands back its metadata,
an absent name yields none, and re-registering the name afterwards succeeds
with fresh default metadata. -/
theorem C6_unregister_semantics_witness :
    ((⟨[("a", ⟨PluginMetadata.new "a" "1" PluginType.Backend 0⟩)]⟩ :
        PluginRegistry).unregister "a").1 =
      some (PluginMetadata.new "a" "1" PluginType.Backend 0) ∧
    (PluginRegistry.new.unregister "zz").1 = Option.none ∧
    (((⟨[("a", ⟨{ PluginMetadata.new "a" "1" PluginType.Backend 0 with
          enabled := false }⟩)]⟩ : PluginRegistry).unregister "a").2.register
        (samplePlugin "a" "2" PluginType.Router) 9).2.get_metadata "a" =
      some (PluginMetadata.new "a" "2" PluginType.Router 9) :=
  ⟨C6_unregister_semantics.1 _ "a"
      ⟨PluginMetadata.new "a" "1" PluginType.Backend 0⟩ (by decide),
   C6_unregister_semantics.2.1 PluginRegistry.new "zz" (by decide),
   (C6_unregister_semantics.2.2.2.2 _ "a" (samplePlugin "a" "2" PluginType.Router)
      9 rfl).2⟩

/-- Claim C8: list_by_type returns exactly the projections of the entries whose
category structurally equals the argument, and after registering one Backend
and one Router plugin it returns exactly the Backend one. -/
theorem C8_list_by_type_filters :
    (∀ (r : PluginRegistry) (t : PluginType) (i : PluginInfo),
        i ∈ r.list_by_type t ↔
          ∃ kv, kv ∈ r.plugins ∧ kv.2.metadata.plugin_type = t ∧
            i = entryInfo kv.2) ∧
    (∀ (pb pr : Plugin) (n1 n2 : Nat),
        pb.plugin_type = PluginType.Backend → pr.plugin_type = PluginType.Router →
        pb.name ≠ pr.name →
        ((PluginRegistry.new.register pb n1).2.register pr n2).2.list_by_type
            PluginType.Backend =
          [⟨pb.name, pb.version, PluginType.Backend, true⟩]) := by
  constructor
  · intro r t i
    simp only [PluginRegistry.list_by_type, List.mem_map, List.mem_filter,
      beq_iff_eq]
    constructor
    · rintro ⟨kv, ⟨hmem, ht⟩, rfl⟩
      exact ⟨kv, hmem, ht, rfl⟩
    · rintro ⟨kv, hmem, ht, rfl⟩
      exact ⟨kv, ⟨hmem, ht⟩, rfl⟩
  · intro pb pr n1 n2 hb hr hne
    have h1 : containsKey PluginRegistry.new.plugins pb.name = false := rfl
    rw [register_success _ pb n1 h1]
    have h2 : containsKey
        (PluginRegistry.new.plugins ++
          [(pb.name, ⟨PluginMetadata.new pb.name pb.version pb.plugin_type n1⟩)])
        pr.name = false := by
      simp only [PluginRegistry.new, containsKey, List.nil_append, List.any_cons,
        List.any_nil, Bool.or_false]
      exact beq_eq_false_iff_ne.mpr hne
    rw [register_success _ pr n2 h2]
    simp [PluginRegistry.list_by_type, entryInfo, PluginMetadata.new, hb, hr,
      PluginRegistry.new]

/-- Concrete run of C8: with one Backend and one Router plugin registered,
list_by_type Backend returns exactly the Backend projection. -/
theorem C8_list_by_type_filters_witness :
    ((PluginRegistry.new.register (samplePlugin "b" "1" PluginType.Backend)
        1).2.register (samplePlugin "r" "2" PluginType.Router) 2).2.list_by_type
        PluginType.Backend =
      [⟨"b", "1", PluginType.Backend, true⟩] :=
  C8_list_by_type_filters.2 _ _ 1 2 rfl rfl (by decide)

/-- Claim C9: load_plugins_from_dir returns a successful zero count when the
directory is missing or unreadable, otherwise the count of entries with a
native-library extension, and it leaves the manager (hence the registry)
untouched. -/
theorem C9_load_plugins_from_dir_count :
    ∀ (m : PluginManager) (d : DirListing),
      (m.load_plugins_from_dir d).2 = m ∧
      ((d = DirListing.missing ∨ d = DirListing.unreadable) →
        (m.load_plugins_from_dir d).1 = Except.ok 0) ∧
      (∀ files, d = DirListing.entries files →
        (m.load_plugins_from_dir d).1 =
          Except.ok ((files.filter isNativeLib).length)) := by
  intro m d
  refine ⟨?_, ?_, ?_⟩
  · cases d <;> rfl
  · rintro (rfl | rfl) <;> rfl
  · rintro files rfl
    simp [PluginManager.load_plugins_from_dir, List.countP_eq_length_filter]

/-- Concrete run of C9: a missing directory yields zero, a listing with three
native-library names among five entries yields three, and the manager is
unchanged. -/
theorem C9_load_plugins_from_dir_count_witness :
    (PluginManager.new.load_plugins_from_dir DirListing.missing).1 =
      Except.ok 0 ∧
    (PluginManager.new.load_plugins_from_dir
        (DirListing.entries
          ["libfoo.so", "readme.txt", "bar.dll", "baz.dylib", "noext"])).1 =
      Except.ok 3 ∧
    (PluginManager.new.load_plugins_from_dir
        (DirListing.entries
          ["libfoo.so", "readme.txt", "bar.dll", "baz.dylib", "noext"])).2 =
      PluginManager.new :=
  ⟨(C9_load_plugins_from_dir_count PluginManager.new DirListing.missing).2.1
      (Or.inl rfl),
   ((C9_load_plugins_from_dir_count PluginManager.new
        (DirListing.entries
          ["libfoo.so", "readme.txt", "bar.dll", "baz.dylib", "noext"])).2.2
      ["libfoo.so", "readme.txt", "bar.dll", "baz.dylib", "noext"] rfl).trans
     (by decide),
   (C9_load_plugins_from_dir_count PluginManager.new
      (DirListing.entries
        ["libfoo.so", "readme.txt", "bar.dll", "baz.dylib", "noext"])).1⟩

/-- Claim C2 (settled against the spec-modelled batch operations, since src
declares none): over plugins [A succeeds, B fails, C succeeds], the batch
invokes hooks in registration order and is fail-fast: C's hook is never
invoked, the returned error is B's verbatim, and A's hook ran with no
automatic teardown (the invoked-hook trace is exactly [A, B]); symmetrically
for the shutdown batch. -/
theorem C2_lifecycle_fail_fast :
    ∀ (A B C : Plugin) (e e' : AuriaError),
      A.initResult = Except.ok () → B.initResult = Except.error e →
      A.shutdownResult = Except.ok () → B.shutdownResult = Except.error e' →
      init_all [A, B, C] = (Except.error e, [A.name, B.name]) ∧
      shutdown_all [A, B, C] = (Except.error e', [A.name, B.name]) := by
  intro A B C e e' hA hB hA' hB'
  constructor
  · simp [init_all, hA, hB]
  · simp [shutdown_all, hA', hB']

/-- Concrete run of C2: with A fine, B failing and C fine, both batches stop at
B, return B's error and record hook invocations for A and B only. -/
theorem C2_lifecycle_fail_fast_witness :
    init_all
        [samplePlugin "A" "1" PluginType.Backend,
         sampleFailing "B" (AuriaError.ExecutionError "boom"),
         samplePlugin "C" "1" PluginType.Router] =
      (Except.error (AuriaError.ExecutionError "boom"), ["A", "B"]) ∧
    shutdown_all
        [samplePlugin "A" "1" PluginType.Backend,
         sampleFailing "B" (AuriaError.ExecutionError "boom"),
         samplePlugin "C" "1" PluginType.Router] =
      (Except.error (AuriaError.ExecutionError "boom"), ["A", "B"]) :=
  C2_lifecycle_fail_fast _ _ _ _ _ rfl rfl rfl rfl

/-- Claim C3 fails on the code: the duplicate check runs under a shared read
lock and the insert under a separate, later write lock, so the interleaving
check1-check2-insert1-insert2 of two concurrent registrations of the name
"dup" on an empty registry lets BOTH calls return Ok, the second insert
silently overwriting the first call's metadata — not the at-most-one-succeeds
behaviour the claim states. -/
theorem C3_register_race_both_succeed :
    raceRun (samplePlugin "dup" "1.0" PluginType.Backend)
        (samplePlugin "dup" "2.0" PluginType.Router) 5 6
        ⟨[], RegisterPhase.checking, RegisterPhase.checking⟩
        [TaskId.one, TaskId.two, TaskId.one, TaskId.two] =
      ⟨[("dup", ⟨PluginMetadata.new "dup" "2.0" PluginType.Router 6⟩)],
        RegisterPhase.finished (Except.ok ()),
        RegisterPhase.finished (Except.ok ())⟩ := by
  decide

/-- Concrete run of C10: a plugin named by the empty string registers into the
empty registry and is stored under the empty-string key. -/
theorem C10_empty_name_accepted_witness :
    (PluginRegistry.new.register (samplePlugin "" "0.1" PluginType.Security)
        9).1 = Except.ok () ∧
    (PluginRegistry.new.register (samplePlugin "" "0.1" PluginType.Security)
        9).2.get_metadata "" =
      some (PluginMetadata.new "" "0.1" PluginType.Security 9) :=
  C10_empty_name_accepted PluginRegistry.new _ 9 (by decide) (by decide)

end AuriaPlugin
